import Mathlib

/-!
Verification of the `link-milestone` CI helper (`src/main.go`).

The program is embedded shallowly: the GitHub tracker is a record of call
responses (one repository, as the Go client is bound to `g.Owner`/`g.Repo`),
Go strings are `List Char` (all inputs of interest are ASCII, so Go's byte
indexing and Lean's character operations agree), Go `int` is `Int`
(64-bit overflow is never exercised by any claim and is not modelled),
fallible calls return `Except`/`Option`, and runtime panics (index out of
range, nil pointer dereference) are explicit outcomes.  Network writes are
logged as a list of issued `Edit` calls `(issue id, milestone id)`.
-/

namespace LinkMilestone

/-! Section: Go string primitives -/

/-- Go `strings.Split(s, sep)` for a one-character separator: the segments
between occurrences of `sep`; the result is never empty (`Split("",sep) = [""]`). -/
def splitChar (sep : Char) : List Char → List (List Char)
  | [] => [[]]
  | c :: rest =>
    match splitChar sep rest with
    | [] => [[]]
    | g :: gs => if c = sep then [] :: g :: gs else (c :: g) :: gs

/-- Go byte-wise string comparison `x < y` (lexicographic; code points and
bytes agree on ASCII, the only inputs the program sees). -/
def listCharLt : List Char → List Char → Bool
  | [], [] => false
  | [], _ :: _ => true
  | _ :: _, [] => false
  | a :: as, b :: bs => if a < b then true else if b < a then false else listCharLt as bs

/-- Go `strings.EqualFold` restricted to ASCII folding (the program only
compares against the literal `"closed"`). -/
def eqFold (a b : String) : Bool :=
  a.data.map Char.toLower == b.data.map Char.toLower

/-- Numeric value of a digit string. -/
def digitsVal (l : List Char) : Nat :=
  l.foldl (fun a c => a * 10 + (c.toNat - '0'.toNat)) 0

/-- Go `strconv.Atoi`: an optional sign followed by one or more digits;
anything else is an error (`none`).  The int64 range check is not modelled
(no claim involves numbers near 2^63). -/
def goAtoiL (l : List Char) : Option Int :=
  match l with
  | [] => none
  | c :: rest =>
    if c = '+' then
      if rest ≠ [] && rest.all Char.isDigit then some (Int.ofNat (digitsVal rest)) else none
    else if c = '-' then
      if rest ≠ [] && rest.all Char.isDigit then some (-Int.ofNat (digitsVal rest)) else none
    else
      if (c :: rest).all Char.isDigit then some (Int.ofNat (digitsVal (c :: rest))) else none

/-- Go `strconv.Atoi` on a `String`. -/
def goAtoi (s : String) : Option Int := goAtoiL s.data

/-- Go `id, _ := strconv.Atoi(next[1:])` — the error is discarded, so a failed
parse leaves the zero value `0`. -/
def atoiLoose (l : List Char) : Int := (goAtoiL l).getD 0

/-! Section: `golang.org/x/mod/semver`

The resolver calls `semver.Sort`, which sorts with `ByVersion.Less`:
`Compare` first, falling back to plain string order when `Compare` says the
strings are equal.  `Compare` parses both arguments; a string that does not
begin with `'v'` (or is otherwise malformed) is invalid, invalid compares
less than valid, and two invalid strings compare equal. -/

/-- Function `semver.parseInt`: leading decimal digits, no leading zero unless the
number is exactly `"0"`; returns the digits and the rest. -/
def svParseInt (l : List Char) : Option (List Char × List Char) :=
  match l with
  | [] => none
  | c :: _ =>
    if !c.isDigit then none
    else
      let t := l.takeWhile Char.isDigit
      let rest := l.dropWhile Char.isDigit
      if c = '0' && t.length ≠ 1 then none else some (t, rest)

/-- Function `semver.isIdentChar`: ASCII letters, digits and `'-'`. -/
def isIdentChar (c : Char) : Bool := c.isAlpha || c.isDigit || c = '-'

/-- Function `semver.isBadNum`: all digits, longer than one character, leading zero. -/
def isBadNum (l : List Char) : Bool :=
  l.all Char.isDigit && decide (l.length > 1) && l.head? == some '0'

/-- Function `semver.isNum`: all characters are digits. -/
def isNum (l : List Char) : Bool := l.all Char.isDigit

/-- Function `semver.parsePrerelease`: a `'-'` followed by nonempty dot-separated
identifiers (ident chars only, numeric identifiers without leading zeros),
stopping at a `'+'`.  Returns the prerelease (with its `'-'`) and the rest. -/
def svParsePre (l : List Char) : Option (List Char × List Char) :=
  match l with
  | '-' :: rest =>
    let body := rest.takeWhile (· ≠ '+')
    let after := rest.dropWhile (· ≠ '+')
    if (splitChar '.' body).all (fun s => s ≠ [] && s.all isIdentChar && !isBadNum s) then
      some ('-' :: body, after)
    else none
  | _ => none

/-- Function `semver.parseBuild`: a `'+'` followed by nonempty dot-separated
identifier segments, running to the end of the string. -/
def svParseBuild (l : List Char) : Option (List Char × List Char) :=
  match l with
  | '+' :: rest =>
    if (splitChar '.' rest).all (fun s => s ≠ [] && s.all isIdentChar) then
      some ('+' :: rest, [])
    else none
  | _ => none

/-- Parsed semantic version, fields kept as digit strings as in the Go
package. -/
structure SvParsed where
  major : List Char
  minor : List Char
  patch : List Char
  prerelease : List Char
  build : List Char
deriving DecidableEq

/-- Function `semver.parse`: requires the leading `'v'`; minor and patch default to
`"0"` when omitted; optional prerelease then build; nothing may remain. -/
def svParse (v : List Char) : Option SvParsed :=
  match v with
  | 'v' :: rest =>
    match svParseInt rest with
    | none => none
    | some (major, r1) =>
      if r1 = [] then some ⟨major, ['0'], ['0'], [], []⟩
      else
        match r1 with
        | '.' :: r2 =>
          match svParseInt r2 with
          | none => none
          | some (minor, r3) =>
            if r3 = [] then some ⟨major, minor, ['0'], [], []⟩
            else
              match r3 with
              | '.' :: r4 =>
                match svParseInt r4 with
                | none => none
                | some (patch, r5) =>
                  match r5 with
                  | [] => some ⟨major, minor, patch, [], []⟩
                  | '-' :: _ =>
                    match svParsePre r5 with
                    | none => none
                    | some (pre, r6) =>
                      match r6 with
                      | [] => some ⟨major, minor, patch, pre, []⟩
                      | '+' :: _ =>
                        match svParseBuild r6 with
                        | none => none
                        | some (bld, _) => some ⟨major, minor, patch, pre, bld⟩
                      | _ => none
                  | '+' :: _ =>
                    match svParseBuild r5 with
                    | none => none
                    | some (bld, _) => some ⟨major, minor, patch, [], bld⟩
                  | _ => none
              | _ => none
        | _ => none
  | _ => none

/-- Function `semver.compareInt` on digit strings without leading zeros: by length,
then lexicographically. -/
def compareIntSv (x y : List Char) : Int :=
  if x = y then 0
  else if x.length < y.length then -1
  else if y.length < x.length then 1
  else if listCharLt x y then -1 else 1

/-- The identifier-by-identifier loop of `semver.comparePrerelease`
(identifiers are the dot-separated segments after the `'-'`): equal
identifiers are skipped; numeric sorts before alphanumeric; numeric
identifiers compare by length then lexically; alphanumeric lexically;
when one side runs out it is the smaller. -/
def cmpIdents : List (List Char) → List (List Char) → Int
  | [], _ => -1
  | _ :: _, [] => 1
  | dx :: xs, dy :: ys =>
    if dx = dy then cmpIdents xs ys
    else if isNum dx ≠ isNum dy then (if isNum dx then -1 else 1)
    else if isNum dx && dx.length ≠ dy.length then
      (if dx.length < dy.length then -1 else 1)
    else if listCharLt dx dy then -1 else 1

/-- Function `semver.comparePrerelease`: equal strings are equal; an absent
prerelease is greater than any present one; otherwise compare the
dot-separated identifiers. -/
def cmpPre (x y : List Char) : Int :=
  if x = y then 0
  else if x = [] then 1
  else if y = [] then -1
  else cmpIdents (splitChar '.' (x.drop 1)) (splitChar '.' (y.drop 1))

/-- Function `semver.Compare`: invalid is less than valid, two invalids are equal,
two valids compare by major, minor, patch, then prerelease. -/
def svCompare (a b : List Char) : Int :=
  match svParse a, svParse b with
  | none, none => 0
  | none, some _ => -1
  | some _, none => 1
  | some pa, some pb =>
    let c1 := compareIntSv pa.major pb.major
    if c1 ≠ 0 then c1 else
    let c2 := compareIntSv pa.minor pb.minor
    if c2 ≠ 0 then c2 else
    let c3 := compareIntSv pa.patch pb.patch
    if c3 ≠ 0 then c3 else cmpPre pa.prerelease pb.prerelease

/-- Function `semver.ByVersion.Less`: `Compare`, falling back to plain string order
on ties. -/
def byVersionLess (a b : List Char) : Bool :=
  let c := svCompare a b
  if c ≠ 0 then decide (c < 0) else listCharLt a b

/-- Insert into a sorted list (used to model `sort.Sort(ByVersion(...))`;
for the distinct map keys the comparison is a strict total order, so the
sorted result — in particular its head, the minimum — does not depend on
Go's randomized map iteration order). -/
def insertBy (lt : List Char → List Char → Bool) (x : List Char) :
    List (List Char) → List (List Char)
  | [] => [x]
  | y :: ys => if lt x y then x :: y :: ys else y :: insertBy lt x ys

/-- Insertion sort by a boolean comparison. -/
def sortBy (lt : List Char → List Char → Bool) : List (List Char) → List (List Char)
  | [] => []
  | x :: xs => insertBy lt x (sortBy lt xs)

/-! Section: The regular expressions of `main.go` -/

/-- Pattern `(a)?(b)?...$`: the remaining characters must be some in-order selection
of the optional letters and then the end of the text (the option letters are
pairwise distinct, so the greedy scan below decides exactly that language). -/
def optsEnd : List Char → List Char → Bool
  | _, [] => true
  | [], _ :: _ => false
  | o :: os, c :: cs => if c = o then optsEnd os cs else optsEnd os (c :: cs)

/-- Branch `^[fF]ix(e)?(s)?(d)?$` of the keyword regexp: anchored at both
ends, so it matches only the whole token. -/
def matchFixAnchored (l : List Char) : Bool :=
  (l.take 3 == ['f', 'i', 'x'] || l.take 3 == ['F', 'i', 'x']) &&
    optsEnd ['e', 's', 'd'] (l.drop 3)

/-- Branch `[cC]lose(s)?(d)?$` matched at a given position: `close` (either
case of `c`) then optional `s`, optional `d`, then end of text. -/
def matchCloseHere (l : List Char) : Bool :=
  (l.take 5 == ['c', 'l', 'o', 's', 'e'] || l.take 5 == ['C', 'l', 'o', 's', 'e']) &&
    optsEnd ['s', 'd'] (l.drop 5)

/-- Branch `[rR]esolve(s)?(d)?$` matched at a given position. -/
def matchResolveHere (l : List Char) : Bool :=
  (l.take 7 == ['r', 'e', 's', 'o', 'l', 'v', 'e'] ||
      l.take 7 == ['R', 'e', 's', 'o', 'l', 'v', 'e']) &&
    optsEnd ['s', 'd'] (l.drop 7)

/-- Go `Regexp.MatchString` for an unanchored pattern: a match may start at any
position, i.e. at the head of any suffix. -/
def anySuffix (p : List Char → Bool) : List Char → Bool
  | [] => p []
  | c :: rest => p (c :: rest) || anySuffix p rest

/-- Go `keywords.MatchString` for
`^[fF]ix(e)?(s)?(d)?$|[cC]lose(s)?(d)?$|[rR]esolve(s)?(d)?$`: the `^` binds
only to the first alternative, so the close/resolve branches match at any
start position (any suffix). -/
def keywordMatchL (l : List Char) : Bool :=
  matchFixAnchored l || anySuffix (fun t => matchCloseHere t || matchResolveHere t) l

/-- Go `issue.MatchString` for `^#[0-9]+`: the token starts with `'#'` and at
least one digit (anything may follow). -/
def issueTokL : List Char → Bool
  | '#' :: c :: _ => c.isDigit
  | _ => false

/-- One position of `r.MatchString(title)` for `v[0-9]\.[0-9]+\.[0-9]`:
`v`, a digit, `.`, then `midVer`. -/
def dotDigitAfter : List Char → Bool
  | '.' :: c :: _ => c.isDigit
  | _ => false

/-- Pattern `[0-9]+\.[0-9]` matched at the head: one or more digits, a dot, a digit. -/
def midVer : List Char → Bool
  | [] => false
  | c :: rest => c.isDigit && (dotDigitAfter rest || midVer rest)

/-- Pattern `v[0-9]\.[0-9]+\.[0-9]` matched at the head of the text. -/
def matchVersionAt : List Char → Bool
  | 'v' :: c :: '.' :: rest => c.isDigit && midVer rest
  | _ => false

/-- Go `r.MatchString(title)` for the unanchored version pattern. -/
def titleHasVersion (s : String) : Bool := anySuffix matchVersionAt s.data

/-! Section: Data model -/

/-- A milestone as returned by the tracker (`github.Milestone`, the fields
the program reads). -/
structure Milestone where
  number : Int
  title : String
  state : String
deriving DecidableEq

/-- An issue/PR record as returned by `Issues.Get` (the fields the program
reads). -/
structure IssueRecord where
  body : Option String
  state : String
  milestone : Option Milestone
deriving DecidableEq

/-- The tracker's responses for the one repository the client is bound to:
the milestone list, the record served for each issue number, and the error
(if any) returned by an `Issues.Edit` call on a given issue with a given
milestone id. -/
structure Tracker where
  listMilestones : Except String (List Milestone)
  getIssue : Int → Except String IssueRecord
  edit : Int → Int → Option String

/-- Go `type GitHubIssue struct { Owner, Repo string; Id int }`. -/
structure GitHubIssue where
  owner : String
  repo : String
  id : Int
deriving DecidableEq

/-- The environment configuration read through viper. -/
structure Config where
  github_token : String
  github_repository : String
  pr_number : String
deriving DecidableEq

/-- Result of `run` (and of `updateMilestone`): a nil error, a non-nil error
(which `main` logs via `log.Fatal`, exiting non-zero), or a runtime panic. -/
inductive Outcome where
  | ok
  | err (msg : String)
  | crash (msg : String)
deriving DecidableEq

/-- Result of `getLinkedIssue`: a linked issue id, no link (the function
never returns a non-nil error), or a runtime panic. -/
inductive LinkedIssue where
  | found (id : Int)
  | noLink
  | crash (msg : String)
deriving DecidableEq

/-- An issued `Issues.Edit` network write: (issue number, milestone id). -/
abbrev Edit := Int × Int

/-! Section: The program -/

/-- Overwriting insert into the association list modelling the Go map
`milestones map[string]int`. -/
def insertAssoc (k : List Char) (v : Int) : List (List Char × Int) → List (List Char × Int)
  | [] => [(k, v)]
  | (k', v') :: rest => if k = k' then (k, v) :: rest else (k', v') :: insertAssoc k v rest

/-- Go map lookup `milestones[key]` (the key is always present where the
program uses it; a missing key would give the zero value). -/
def lookupA (k : List Char) : List (List Char × Int) → Int
  | [] => 0
  | (k', v) :: rest => if k = k' then v else lookupA k rest

/-- Go `func (g GitHubIssue) getMilestoneId(...) (*int, error)` — lists the
milestones, keeps those whose title contains `v[0-9]\.[0-9]+\.[0-9]` and
whose state is not (case-folded) `"closed"`, keyed by `title[1:]` (the first
character stripped); errors when the map is empty; otherwise sorts the keys
with `semver.Sort` and returns the number stored under the first key.
On success the Go function always returns a non-nil pointer, hence
`.ok (some _)`. -/
def getMilestoneId (_g : GitHubIssue) (tr : Tracker) : Except String (Option Int) :=
  match tr.listMilestones with
  | .error e => .error ("retrieving list of milestones: " ++ e)
  | .ok ghMilestones =>
    let milestones : List (List Char × Int) :=
      ghMilestones.foldl
        (fun acc m =>
          if titleHasVersion m.title && !eqFold m.state "closed" then
            insertAssoc (m.title.data.drop 1) m.number acc
          else acc)
        []
    match milestones with
    | [] => .error "no open version milestones were found"
    | _ :: _ =>
      match sortBy byVersionLess (milestones.map Prod.fst) with
      | [] => .error "no open version milestones were found"
      | v :: _ => .ok (some (lookupA v milestones))

/-- The token scan of `getLinkedIssue`: on a keyword token the next element
`bodySplit[i+1]` is read unconditionally — out of range when the keyword is
the last token; when the next token matches `^#[0-9]+` the function returns
`strconv.Atoi(next[1:])` with the error discarded. -/
def scanTokens : List (List Char) → LinkedIssue
  | [] => .noLink
  | [s] => if keywordMatchL s then .crash "index out of range" else .noLink
  | s :: next :: rest =>
    if keywordMatchL s then
      if issueTokL next then .found (atoiLoose (next.drop 1))
      else scanTokens (next :: rest)
    else scanTokens (next :: rest)

/-- Go `func (g GitHubIssue) getLinkedIssue(...) (*int, error)` — the error of
`Issues.Get` is discarded (`resp, _, _ :=`); on a failed call the returned
issue is nil and `resp.Body` dereferences a nil pointer.  Otherwise the body
(when present) is split on the space character and scanned.  No return path
carries a non-nil error. -/
def getLinkedIssue (g : GitHubIssue) (tr : Tracker) : LinkedIssue :=
  match tr.getIssue g.id with
  | .error _ => .crash "nil pointer dereference"
  | .ok resp =>
    match resp.body with
    | none => .noLink
    | some b => scanTokens (splitChar ' ' b.data)

/-- Go `func (g GitHubIssue) updateMilestone(...) error` — fetches the record
(wrapping a fetch error with `getting issue #N`), edits the milestone only
when the record is unmilestoned and case-folded-closed (wrapping an edit
error with `updating milestone on issue #N`); otherwise the debug log line
dereferences `issue.Milestone.Title`, a nil pointer when the record has no
milestone.  The second component lists the issued edit calls. -/
def updateMilestone (g : GitHubIssue) (tr : Tracker) (milestoneId : Int) :
    Outcome × List Edit :=
  match tr.getIssue g.id with
  | .error e => (.err ("getting issue #" ++ toString g.id ++ ": " ++ e), [])
  | .ok issue =>
    if issue.milestone.isNone && eqFold issue.state "closed" then
      match tr.edit g.id milestoneId with
      | some e =>
        (.err ("updating milestone on issue #" ++ toString g.id ++ ": " ++ e),
          [(g.id, milestoneId)])
      | none => (.ok, [(g.id, milestoneId)])
    else
      match issue.milestone with
      | none => (.crash "nil pointer dereference", [])
      | some _ => (.ok, [])

/-- Go `func run() error` — splits `github_repository` on `/` and indexes
positions 0 and 1 (position 1 is out of range when there is no `/`), parses
`pr_number`, resolves the milestone, applies it to the PR, extracts the
linked issue and applies the same id there.  The `milestoneId == nil` branch
mirrors the Go source; it is unreachable because `getMilestoneId` never
returns `.ok none`. -/
def run (cfg : Config) (tr : Tracker) : Outcome × List Edit :=
  match splitChar '/' cfg.github_repository.data with
  | [] => (.crash "index out of range", [])
  | [_] => (.crash "index out of range", [])
  | ownerL :: repoL :: _ =>
    match goAtoi cfg.pr_number with
    | none =>
      (.err ("parsing pr number: strconv.Atoi: parsing \"" ++ cfg.pr_number ++
        "\": invalid syntax"), [])
    | some prId =>
      let pr : GitHubIssue := ⟨String.mk ownerL, String.mk repoL, prId⟩
      match getMilestoneId pr tr with
      | .error e => (.err ("getting milestone id: " ++ e), [])
      | .ok none => (.ok, [])
      | .ok (some milestoneId) =>
        match updateMilestone pr tr milestoneId with
        | (.ok, ed1) =>
          (match getLinkedIssue pr tr with
           | .crash m => (.crash m, ed1)
           | .noLink => (.ok, ed1)
           | .found liId =>
             let li : GitHubIssue := ⟨String.mk ownerL, String.mk repoL, liId⟩
             match updateMilestone li tr milestoneId with
             | (.ok, ed2) => (.ok, ed1 ++ ed2)
             | (r, ed2) => (r, ed1 ++ ed2))
        | (r, ed1) => (r, ed1)

/-! Section: Statement-support definitions -/

/-- The whole-token language of the anchored branch `^[fF]ix(e)?(s)?(d)?$`. -/
def fixForms : List (List Char) :=
  (["fix", "fixe", "fixs", "fixd", "fixes", "fixed", "fixsd", "fixesd",
    "Fix", "Fixe", "Fixs", "Fixd", "Fixes", "Fixed", "Fixsd", "Fixesd"]).map String.data

/-- The suffix language of the unanchored branch `[cC]lose(s)?(d)?$`. -/
def closeForms : List (List Char) :=
  (["close", "closes", "closed", "closesd",
    "Close", "Closes", "Closed", "Closesd"]).map String.data

/-- The suffix language of the unanchored branch `[rR]esolve(s)?(d)?$`. -/
def resolveForms : List (List Char) :=
  (["resolve", "resolves", "resolved", "resolvesd",
    "Resolve", "Resolves", "Resolved", "Resolvesd"]).map String.data

/-- The keyword family claimed by the spec: fix/fixes/fixed, close/closes/closed,
resolve/resolves/resolved, first letter optionally capitalized (stated from
the spec's words, for comparison with the source's matcher). -/
def specClosingKeywords : List String :=
  ["fix", "fixes", "fixed", "close", "closes", "closed",
   "resolve", "resolves", "resolved",
   "Fix", "Fixes", "Fixed", "Close", "Closes", "Closed",
   "Resolve", "Resolves", "Resolved"]

/-- The token scan passes through `pre` without returning or crashing: no
token of `pre` is a keyword whose immediately following token (within `pre`,
or the token `nxt` that follows `pre`) matches `^#[0-9]+`. -/
def noEarlyHit : List (List Char) → List Char → Bool
  | [], _ => true
  | [s], nxt => !(keywordMatchL s && issueTokL nxt)
  | s :: t :: rest, nxt => !(keywordMatchL s && issueTokL t) && noEarlyHit (t :: rest) nxt

/-! Section: Concrete fixtures used by the claim theorems -/

/-- A well-formed configuration for repository `o/r`, PR number 10. -/
def cfgOR : Config := ⟨"t", "o/r", "10"⟩

/-- An open version milestone `v0.9.0` with number 5. -/
def msA : Milestone := ⟨5, "v0.9.0", "open"⟩

/-- A closed, unmilestoned issue record with no body. -/
def recCN : IssueRecord := ⟨none, "closed", none⟩

/-- Tracker with three open version milestones `v1.2.0`, `v1.10.0`, `v2.0.0`
numbered 1, 2, 3. -/
def trThreeOpen : Tracker :=
  ⟨.ok [⟨1, "v1.2.0", "open"⟩, ⟨2, "v1.10.0", "open"⟩, ⟨3, "v2.0.0", "open"⟩],
   fun _ => .error "unused", fun _ _ => none⟩

/-- Tracker whose milestone list is empty. -/
def trNoMilestones : Tracker := ⟨.ok [], fun _ => .error "unused", fun _ _ => none⟩

/-- Tracker serving a PR whose body ends in a closing keyword. -/
def trTrailingKeyword : Tracker :=
  ⟨.ok [], fun _ => .ok ⟨some "this closes", "closed", none⟩, fun _ _ => none⟩

/-- Tracker serving an open, unmilestoned issue. -/
def trOpenUnmilestoned : Tracker :=
  ⟨.ok [], fun _ => .ok ⟨none, "open", none⟩, fun _ _ => none⟩

/-- Tracker whose `Issues.Get` fails. -/
def trGetFails : Tracker := ⟨.ok [], fun _ => .error "boom", fun _ _ => none⟩

/-- Tracker serving a PR body whose issue reference has trailing junk. -/
def trAtoiJunk : Tracker :=
  ⟨.ok [], fun _ => .ok ⟨some "Fixes #42abc", "closed", none⟩, fun _ _ => none⟩

/-- Tracker serving the spec's example body `Fixes #42 and related work`. -/
def trFixes42 : Tracker :=
  ⟨.ok [], fun _ => .ok ⟨some "Fixes #42 and related work", "closed", none⟩, fun _ _ => none⟩

/-- An issue record that already carries a milestone. -/
def recMilestoned : IssueRecord := ⟨none, "closed", some ⟨9, "v1.0.0", "open"⟩⟩

/-- Tracker serving `recMilestoned`. -/
def trMilestoned : Tracker := ⟨.ok [], fun _ => .ok recMilestoned, fun _ _ => none⟩

/-- Configuration of the end-to-end scenario: repository `octo/repo`, PR 10. -/
def cfgC9 : Config := ⟨"t", "octo/repo", "10"⟩

/-- Tracker of the end-to-end scenario: open milestones `v0.9.0` (number 5)
and `v1.0.0` (number 6); PR 10 closed, unmilestoned, body `Closes #7`;
issue 7 closed and unmilestoned; edits succeed. -/
def trC9 : Tracker :=
  ⟨.ok [⟨5, "v0.9.0", "open"⟩, ⟨6, "v1.0.0", "open"⟩],
   fun i =>
     if i = 10 then .ok ⟨some "Closes #7", "closed", none⟩
     else if i = 7 then .ok ⟨some "", "closed", none⟩
     else .error "not found",
   fun _ _ => none⟩

/-- A tracker never consulted by the configuration-crash claim. -/
def trAny : Tracker := ⟨.ok [], fun _ => .error "unused", fun _ _ => none⟩

/-! Section: Helper lemmas -/

theorem optsEnd_cons (o : Char) (os : List Char) (c : Char) (cs : List Char) :
    optsEnd (o :: os) (c :: cs) =
      if c = o then optsEnd os cs else optsEnd os (c :: cs) := rfl

theorem optsEnd_nil_iff (cs : List Char) : optsEnd [] cs = true ↔ cs = [] := by
  cases cs <;> simp [optsEnd]

theorem optsEnd_d_iff (cs : List Char) :
    optsEnd ['d'] cs = true ↔ cs = [] ∨ cs = ['d'] := by
  cases cs with
  | nil => simp [optsEnd]
  | cons c cs' =>
    by_cases h : c = 'd'
    · subst h
      simp +decide [optsEnd, optsEnd_nil_iff]
    · simp +decide [optsEnd, h, optsEnd_nil_iff]

theorem optsEnd_sd_iff (cs : List Char) :
    optsEnd ['s', 'd'] cs = true ↔
      cs = [] ∨ cs = ['s'] ∨ cs = ['d'] ∨ cs = ['s', 'd'] := by
  cases cs with
  | nil => simp [optsEnd]
  | cons c cs' =>
    by_cases h : c = 's'
    · subst h
      simp +decide [optsEnd, optsEnd_d_iff]
    · rw [optsEnd_cons, if_neg h, optsEnd_d_iff]
      simp [h]

theorem optsEnd_esd_iff (cs : List Char) :
    optsEnd ['e', 's', 'd'] cs = true ↔
      cs = [] ∨ cs = ['e'] ∨ cs = ['s'] ∨ cs = ['d'] ∨
      cs = ['e', 's'] ∨ cs = ['e', 'd'] ∨ cs = ['s', 'd'] ∨ cs = ['e', 's', 'd'] := by
  cases cs with
  | nil => simp [optsEnd]
  | cons c cs' =>
    by_cases h : c = 'e'
    · subst h
      simp +decide [optsEnd, optsEnd_sd_iff]
    · rw [optsEnd_cons, if_neg h, optsEnd_sd_iff]
      simp [h]

theorem matchFix_iff (l : List Char) : matchFixAnchored l = true ↔ l ∈ fixForms := by
  constructor
  · intro h
    rw [matchFixAnchored] at h
    simp only [Bool.and_eq_true, Bool.or_eq_true, beq_iff_eq, optsEnd_esd_iff] at h
    obtain ⟨h1, h2⟩ := h
    have hl : l.take 3 ++ l.drop 3 = l := List.take_append_drop 3 l
    rcases h1 with h1 | h1 <;>
      rcases h2 with h2 | h2 | h2 | h2 | h2 | h2 | h2 | h2 <;>
      · rw [← hl, h1, h2]; decide
  · intro h
    fin_cases h <;> decide

theorem matchClose_iff (l : List Char) : matchCloseHere l = true ↔ l ∈ closeForms := by
  constructor
  · intro h
    rw [matchCloseHere] at h
    simp only [Bool.and_eq_true, Bool.or_eq_true, beq_iff_eq, optsEnd_sd_iff] at h
    obtain ⟨h1, h2⟩ := h
    have hl : l.take 5 ++ l.drop 5 = l := List.take_append_drop 5 l
    rcases h1 with h1 | h1 <;>
      rcases h2 with h2 | h2 | h2 | h2 <;>
      · rw [← hl, h1, h2]; decide
  · intro h
    fin_cases h <;> decide

theorem matchResolve_iff (l : List Char) : matchResolveHere l = true ↔ l ∈ resolveForms := by
  constructor
  · intro h
    rw [matchResolveHere] at h
    simp only [Bool.and_eq_true, Bool.or_eq_true, beq_iff_eq, optsEnd_sd_iff] at h
    obtain ⟨h1, h2⟩ := h
    have hl : l.take 7 ++ l.drop 7 = l := List.take_append_drop 7 l
    rcases h1 with h1 | h1 <;>
      rcases h2 with h2 | h2 | h2 | h2 <;>
      · rw [← hl, h1, h2]; decide
  · intro h
    fin_cases h <;> decide

theorem anySuffix_iff (p : List Char → Bool) (l : List Char) :
    anySuffix p l = true ↔ ∃ a b, l = a ++ b ∧ p b = true := by
  induction l with
  | nil =>
    simp only [anySuffix]
    constructor
    · intro h
      exact ⟨[], [], rfl, h⟩
    · rintro ⟨a, b, hab, hb⟩
      obtain ⟨rfl, rfl⟩ := List.append_eq_nil.mp hab.symm
      exact hb
  | cons c rest ih =>
    simp only [anySuffix, Bool.or_eq_true, ih]
    constructor
    · rintro (h | ⟨a, b, rfl, hb⟩)
      · exact ⟨[], c :: rest, rfl, h⟩
      · exact ⟨c :: a, b, rfl, hb⟩
    · rintro ⟨a, b, hab, hb⟩
      cases a with
      | nil =>
        left
        subst hab
        exact hb
      | cons a0 as =>
        right
        injection hab with h1 h2
        exact ⟨as, b, h2, hb⟩

theorem scanTokens_skip (pre : List (List Char)) (kw ref : List Char)
    (rest : List (List Char)) (h : noEarlyHit pre kw = true) :
    scanTokens (pre ++ kw :: ref :: rest) = scanTokens (kw :: ref :: rest) := by
  induction pre with
  | nil => rfl
  | cons s pre' ih =>
    cases pre' with
    | nil =>
      by_cases hk : keywordMatchL s = true
      · have hi : issueTokL kw = false := by
          simpa [noEarlyHit, hk] using h
        simp [scanTokens, hk, hi]
      · simp [scanTokens, hk]
    | cons t pre'' =>
      rw [noEarlyHit] at h
      simp only [Bool.and_eq_true] at h
      obtain ⟨h1, h2⟩ := h
      by_cases hk : keywordMatchL s = true
      · have hi : issueTokL t = false := by
          simpa [hk] using h1
        simpa [scanTokens, hk, hi] using ih h2
      · simpa [scanTokens, hk] using ih h2

theorem atoiLoose_digits (d : Char) (ds : List Char)
    (h : (d :: ds).all Char.isDigit = true) :
    atoiLoose (d :: ds) = Int.ofNat (digitsVal (d :: ds)) := by
  have hd : d.isDigit = true := by
    have := List.all_eq_true.mp h d (by simp)
    simpa using this
  have hp : d ≠ '+' := by
    intro hc
    rw [hc] at hd
    exact absurd hd (by decide)
  have hm : d ≠ '-' := by
    intro hc
    rw [hc] at hd
    exact absurd hd (by decide)
  simp [atoiLoose, goAtoiL, hp, hm, h]

theorem splitChar_no_sep (sep : Char) (l : List Char) (h : sep ∉ l) :
    splitChar sep l = [l] := by
  induction l with
  | nil => rfl
  | cons c rest ih =>
    rw [List.mem_cons] at h
    push_neg at h
    obtain ⟨h1, h2⟩ := h
    have hc : ¬ c = sep := fun hcc => h1 hcc.symm
    simp [splitChar, ih h2, hc]

/-! Section: Claim theorems -/

/-- Claim C1 (evaluation at the failing input): with open milestones
`v1.2.0` (number 1), `v1.10.0` (number 2) and `v2.0.0` (number 3), the
resolver returns number 2 — the milestone `v1.10.0` — and not number 1
(`v1.2.0`), the numerically lowest version the claim demands.  Stripping
the `v` makes every key invalid for `semver.Compare`, so `semver.Sort`
falls back to plain lexical string order, under which `1.10.0` sorts
first. -/
theorem c1_resolver_picks_lexically_lowest :
    getMilestoneId ⟨"o", "r", 10⟩ trThreeOpen = .ok (some 2) ∧
      getMilestoneId ⟨"o", "r", 10⟩ trThreeOpen ≠ .ok (some 1) := by
  refine ⟨rfl, ?_⟩
  show (Except.ok (some 2) : Except String (Option Int)) ≠ .ok (some 1)
  simp

/-- Claim C2 (evaluation at the failing input): when the tracker reports
zero milestones, `getMilestoneId` returns the error
`no open version milestones were found`; `run` wraps it and returns a
non-nil error, so `main` reaches `log.Fatal` and the process exits with a
non-zero status — not the clean exit the claim states.  No network write
is issued (the edit log is empty); the `milestoneId == nil` clean-exit
branch of `run` is unreachable. -/
theorem c2_no_milestones_is_a_fatal_error :
    run cfgOR trNoMilestones =
      (.err "getting milestone id: no open version milestones were found", []) := rfl

/-- Claim C3 (evaluation at the failing input): on the body
`"this closes"`, whose last token is a closing keyword, the extractor
reads `bodySplit[i + 1]` past the end of the token slice and the process
panics instead of returning `None`. -/
theorem c3_trailing_keyword_crashes :
    getLinkedIssue ⟨"o", "r", 10⟩ trTrailingKeyword = .crash "index out of range" := rfl

/-- Claim C4 (evaluation at the failing input): on an unmilestoned issue
whose state is `open`, the guard fails and the debug log line dereferences
`issue.Milestone.Title` — a nil pointer — so the applier crashes rather
than logging and returning success.  (No update call is issued.) -/
theorem c4_open_unmilestoned_crashes :
    updateMilestone ⟨"o", "r", 10⟩ trOpenUnmilestoned 5 =
      (.crash "nil pointer dereference", []) := rfl

/-- Claim C5 counterexample: the error of the `Issues.Get` call inside the
linked-issue extractor is discarded (`resp, _, _ :=`); instead of being
wrapped and returned to the top level, a failing call makes the extractor
dereference the nil issue record and crash. -/
theorem c5_counterexample :
    getLinkedIssue ⟨"o", "r", 10⟩ trGetFails = .crash "nil pointer dereference" := rfl

/-- Claim C5 as amended: every collaborator error other than the extractor's
issue fetch is wrapped with the operation's context and returned (as a
non-nil error) to the top level, with no write beyond the failing call:
listing milestones is wrapped with `getting milestone id: retrieving list
of milestones:`, the applier's fetch with `getting issue #N:`, and the
applier's edit with `updating milestone on issue #N:` (the edit call itself
having been issued). -/
theorem c5_collaborator_errors_wrapped :
    (∀ (gi : Int → Except String IssueRecord) (ed : Int → Int → Option String) (e : String),
        run cfgOR ⟨.error e, gi, ed⟩ =
          (.err ("getting milestone id: " ++ ("retrieving list of milestones: " ++ e)), [])) ∧
    (∀ (ed : Int → Int → Option String) (e : String),
        run cfgOR ⟨.ok [msA], fun _ => .error e, ed⟩ =
          (.err ("getting issue #" ++ toString (10 : Int) ++ ": " ++ e), [])) ∧
    (∀ e : String,
        run cfgOR ⟨.ok [msA], fun _ => .ok recCN, fun _ _ => some e⟩ =
          (.err ("updating milestone on issue #" ++ toString (10 : Int) ++ ": " ++ e),
            [(10, 5)])) :=
  ⟨fun _ _ _ => rfl, fun _ _ => rfl, fun _ => rfl⟩

/-- Witness for the amended claim C5: each of the three wrapped-error cases
at a concrete tracker error. -/
theorem c5_witness :
    run cfgOR ⟨.error "down", fun _ => .error "x", fun _ _ => none⟩ =
      (.err "getting milestone id: retrieving list of milestones: down", []) ∧
    run cfgOR ⟨.ok [msA], fun _ => .error "down", fun _ _ => none⟩ =
      (.err "getting issue #10: down", []) ∧
    run cfgOR ⟨.ok [msA], fun _ => .ok recCN, fun _ _ => some "denied"⟩ =
      (.err "updating milestone on issue #10: denied", [(10, 5)]) :=
  ⟨c5_collaborator_errors_wrapped.1 _ _ "down",
   c5_collaborator_errors_wrapped.2.1 _ "down",
   c5_collaborator_errors_wrapped.2.2 "denied"⟩

/-- Claim C6 counterexample: the token `enclosed` is treated as a closing
keyword (the `[cC]lose(s)?(d)?$` branch is not anchored at the start, so
any token ending in `closed` matches) although it is not in the keyword
family the claim states. -/
theorem c6_counterexample :
    keywordMatchL "enclosed".data = true ∧ "enclosed" ∉ specClosingKeywords := by
  decide

/-- Claim C6 as amended: a token is treated as a closing keyword iff it is
exactly `fix`/`Fix` followed by an optional `e`, optional `s`, optional `d`
(in that order), or it ends in `close`/`Close` followed by an optional `s`
then an optional `d`, or it ends in `resolve`/`Resolve` followed by an
optional `s` then an optional `d`. -/
theorem c6_keyword_characterization (l : List Char) :
    keywordMatchL l = true ↔
      (l ∈ fixForms ∨ (∃ p t, t ∈ closeForms ∧ l = p ++ t) ∨
        (∃ p t, t ∈ resolveForms ∧ l = p ++ t)) := by
  unfold keywordMatchL
  rw [Bool.or_eq_true, matchFix_iff, anySuffix_iff]
  constructor
  · rintro (h | ⟨a, b, rfl, hb⟩)
    · exact Or.inl h
    · have hb' : matchCloseHere b = true ∨ matchResolveHere b = true := by
        simpa using hb
      rcases Or.imp (matchClose_iff b).mp (matchResolve_iff b).mp hb' with hc | hc
      · exact Or.inr (Or.inl ⟨a, b, hc, rfl⟩)
      · exact Or.inr (Or.inr ⟨a, b, hc, rfl⟩)
  · rintro (h | ⟨p, t, ht, rfl⟩ | ⟨p, t, ht, rfl⟩)
    · exact Or.inl h
    · refine Or.inr ⟨p, t, rfl, ?_⟩
      show (matchCloseHere t || matchResolveHere t) = true
      simp [(matchClose_iff t).mpr ht]
    · refine Or.inr ⟨p, t, rfl, ?_⟩
      show (matchCloseHere t || matchResolveHere t) = true
      simp [(matchResolve_iff t).mpr ht]

/-- Witness for the amended claim C6: `preclosed` matches because it ends
in `closed`. -/
theorem c6_witness : keywordMatchL "preclosed".data = true :=
  (c6_keyword_characterization "preclosed".data).mpr
    (Or.inr (Or.inl ⟨"pre".data, "closed".data, by decide, by decide⟩))

/-- Claim C7 counterexample: in the body `"Fixes #42abc"` the keyword is
immediately followed by a token beginning with `#` and digits, but the
extractor returns 0, not 42: the token matches `^#[0-9]+`, yet
`strconv.Atoi("42abc")` fails and the discarded error leaves the zero
value. -/
theorem c7_counterexample :
    getLinkedIssue ⟨"o", "r", 10⟩ trAtoiJunk = .found 0 ∧
      LinkedIssue.found 0 ≠ LinkedIssue.found 42 := by
  exact ⟨rfl, by decide⟩

/-- Claim C7 as amended: tokens are the segments of the body split on the
space character; at the first position where a keyword token is immediately
followed by a token matching `^#[0-9]+`, if that token consists of `#`
followed by digits only, the extractor returns those digits as the issue
number (first match wins, scanning stops there). -/
theorem c7_first_pair_returns_digits (tr : Tracker) (g : GitHubIssue)
    (rec : IssueRecord) (b : String) (pre rest : List (List Char))
    (kw ds : List Char)
    (hget : tr.getIssue g.id = .ok rec)
    (hbody : rec.body = some b)
    (htoks : splitChar ' ' b.data = pre ++ kw :: ('#' :: ds) :: rest)
    (hkw : keywordMatchL kw = true)
    (hne : ds ≠ [])
    (hdig : ds.all Char.isDigit = true)
    (hpre : noEarlyHit pre kw = true) :
    getLinkedIssue g tr = .found (Int.ofNat (digitsVal ds)) := by
  obtain ⟨d, ds', rfl⟩ := List.exists_cons_of_ne_nil hne
  have hd : d.isDigit = true := by
    have := List.all_eq_true.mp hdig d (by simp)
    simpa using this
  simp only [getLinkedIssue, hget, hbody]
  rw [htoks, scanTokens_skip pre kw ('#' :: d :: ds') rest hpre]
  simp only [scanTokens, hkw, if_true, issueTokL, hd, List.drop_succ_cons, List.drop_zero]
  rw [atoiLoose_digits d ds' hdig]

/-- Witness for the amended claim C7: the spec's example body
`Fixes #42 and related work` yields 42. -/
theorem c7_witness : getLinkedIssue ⟨"o", "r", 10⟩ trFixes42 = .found 42 :=
  c7_first_pair_returns_digits trFixes42 ⟨"o", "r", 10⟩
    ⟨some "Fixes #42 and related work", "closed", none⟩ "Fixes #42 and related work"
    [] (["and", "related", "work"].map String.data) "Fixes".data "42".data
    rfl rfl (by decide) (by decide) (by decide) (by decide) rfl

/-- Claim C8: the applier never issues an edit call for a record that
already carries a milestone, or whose state is not (case-folded) `closed`:
in every such case the list of issued `Issues.Edit` calls is empty (the
unmilestoned-and-open combination crashes on the log line, but still
without writing). -/
theorem c8_no_edit_unless_closed_unmilestoned (tr : Tracker) (g : GitHubIssue)
    (mid : Int) (rec : IssueRecord)
    (hget : tr.getIssue g.id = .ok rec)
    (h : rec.milestone ≠ none ∨ eqFold rec.state "closed" = false) :
    (updateMilestone g tr mid).2 = [] := by
  have hguard : (rec.milestone.isNone && eqFold rec.state "closed") = false := by
    rcases h with h | h
    · have hm : rec.milestone.isNone = false := by
        cases hmm : rec.milestone
        · exact absurd hmm h
        · rfl
      simp [hm]
    · simp [h]
  simp only [updateMilestone, hget, hguard]
  cases hmm : rec.milestone <;> simp

/-- Witness for claim C8: an already-milestoned record produces no edit
call. -/
theorem c8_witness :
    recMilestoned.milestone ≠ none ∧
      (updateMilestone ⟨"o", "r", 10⟩ trMilestoned 5).2 = [] :=
  ⟨by decide,
   c8_no_edit_unless_closed_unmilestoned trMilestoned ⟨"o", "r", 10⟩ 5 recMilestoned rfl
     (Or.inl (by decide))⟩

/-- Claim C9 (end-to-end): with open milestones `v0.9.0` (number 5) and
`v1.0.0` (number 6), PR 10 closed and unmilestoned with body `Closes #7`,
and issue 7 closed and unmilestoned, the run succeeds and issues exactly
two edits, both with milestone id 5 (`v0.9.0`): first on PR 10, then on
issue 7. -/
theorem c9_end_to_end : run cfgC9 trC9 = (.ok, [(10, 5), (7, 5)]) := rfl

/-- Claim C10: when `github_repository` contains no `/`, indexing position 1
of the split result is out of range, so `run` panics — for every tracker,
before any network call, and with no write issued — instead of returning a
configuration error. -/
theorem c10_no_slash_panics (cfg : Config) (tr : Tracker)
    (h : '/' ∉ cfg.github_repository.data) :
    run cfg tr = (.crash "index out of range", []) := by
  simp only [run, splitChar_no_sep '/' _ h]

/-- Witness for claim C10: a repository string without `/`. -/
theorem c10_witness :
    '/' ∉ ("norepo" : String).data ∧
      run ⟨"t", "norepo", "oops"⟩ trAny = (.crash "index out of range", []) :=
  ⟨by decide, c10_no_slash_panics ⟨"t", "norepo", "oops"⟩ trAny (by decide)⟩

end LinkMilestone
